import Mathlib

/-!
Verification of the `extern-trait` code generator against its specification.

The development shallowly embeds the parts of the repository the claims are
about:

* the `syn` type AST fragment traversed by `TypeExt::contains_self` /
  `TypeExt::self_kind` (src/impl/src/decl/sig.rs, src/src/ty.rs),
* signature verification `VerifiedSignature::try_new`
  (src/impl/src/decl/sig.rs) and the legacy per-method generator
  `generate_proxy_impl` (src/src/decl.rs),
* the per-item expansion loop (src/impl/src/decl/mod.rs),
* the supertrait capability catalog (src/impl/src/decl/supertraits.rs),
* the symbol deriver (src/src/decl/sym.rs),
* the runtime protocol of the generated proxy: `Repr` bit-reinterpreting
  conversions, type-identity assertion, downcasts and the destructor thunk
  (src/src/lib.rs, src/impl/src/decl/mod.rs, src/impl/src/imp.rs).

Machine integers are modelled as `Nat` with explicit truncation where the
code reinterprets bits; fallible code returns `Except`.
-/

/- ## The `syn` type AST fragment

Embeds exactly the shapes `TypeExt::contains_self` distinguishes
(src/impl/src/decl/sig.rs lines 56-125).  `other` stands for the `_ => false`
arm (never/macro/impl-trait/infer types, and also generic arguments that are
not `GenericArgument::Type`, which the source does not traverse). -/

mutual

inductive Ty where
  | array : Ty → Ty
  | bareFn : List Ty → Option Ty → Ty
  | group : Ty → Ty
  | paren : Ty → Ty
  /-- `Type::Path`: leading colon flag, optional qself type, segments. -/
  | path : Bool → Option Ty → List Segment → Ty
  /-- `Type::Ptr`: const token present, mut token present, pointee. -/
  | ptr : Bool → Bool → Ty → Ty
  /-- `Type::Reference`: optional lifetime, mut token present, referent. -/
  | ref : Option String → Bool → Ty → Ty
  | slice : Ty → Ty
  | tuple : List Ty → Ty
  | other : String → Ty
  deriving Repr

inductive Segment where
  | mk : String → PathArgs → Segment
  deriving Repr

inductive PathArgs where
  | nothing : PathArgs
  | angle : List GenArg → PathArgs
  | parenthesized : List Ty → Option Ty → PathArgs
  deriving Repr

inductive GenArg where
  | type : Ty → GenArg
  /-- lifetime/const/assoc-binding arguments, which the source skips. -/
  | otherArg : GenArg
  deriving Repr

end

def Segment.ident : Segment → String
  | .mk i _ => i

def Segment.args : Segment → PathArgs
  | .mk _ a => a

/-- The type `Self`, i.e. `parse_quote!(Self)`: a plain path with no leading
colon, no qself and the single argument-less segment `Self`. -/
def selfTy : Ty := .path false none [.mk "Self" .nothing]

/-- Structural equality with `parse_quote!(Self)` as used by `self_kind`. -/
def isSelfTy : Ty → Bool
  | .path false none [.mk "Self" .nothing] => true
  | _ => false

mutual

/-- `TypeExt::contains_self` (src/impl/src/decl/sig.rs lines 57-125). -/
def containsSelf : Ty → Bool
  | .array e => containsSelf e
  | .bareFn ins out => containsSelfList ins || containsSelfOpt out
  | .group e => containsSelf e
  | .paren e => containsSelf e
  | .path _ q segs => containsSelfOpt q || containsSelfSegs segs
  | .ptr _ _ e => containsSelf e
  | .ref _ _ e => containsSelf e
  | .slice e => containsSelf e
  | .tuple es => containsSelfList es
  | .other _ => false

def containsSelfOpt : Option Ty → Bool
  | none => false
  | some t => containsSelf t

def containsSelfList : List Ty → Bool
  | [] => false
  | t :: ts => containsSelf t || containsSelfList ts

def containsSelfSegs : List Segment → Bool
  | [] => false
  | .mk id args :: rest =>
    (id == "Self") || containsSelfArgs args || containsSelfSegs rest

def containsSelfArgs : PathArgs → Bool
  | .nothing => false
  | .angle gas => containsSelfGenArgs gas
  | .parenthesized ins out => containsSelfList ins || containsSelfOpt out

def containsSelfGenArgs : List GenArg → Bool
  | [] => false
  | .type t :: rest => containsSelf t || containsSelfGenArgs rest
  | .otherArg :: rest => containsSelfGenArgs rest

end

/-- The three recognized self-placeholder shapes
(src/impl/src/decl/sig.rs lines 8-21). -/
inductive SelfKind where
  | value : SelfKind
  | pointer : Bool → Bool → SelfKind
  | reference : Option String → Bool → SelfKind
  deriving Repr, DecidableEq

/-- `SelfKind::to_type` / `SelfKind::into_type_for`: substitute a concrete
type for the placeholder while keeping the pointer/reference shape. -/
def SelfKind.toType (k : SelfKind) (elem : Ty) : Ty :=
  match k with
  | .value => elem
  | .pointer c m => .ptr c m elem
  | .reference lt m => .ref lt m elem

/-- `TypeExt::self_kind` (src/impl/src/decl/sig.rs lines 127-167). -/
def selfKind (t : Ty) : Option SelfKind :=
  if isSelfTy t then some .value
  else
    match t with
    | .ptr c m e => if isSelfTy e then some (.pointer c m) else none
    | .ref lt m e => if isSelfTy e then some (.reference lt m) else none
    | _ => none

/- ## Method signatures -/

/-- `syn::Signature`, restricted to the fields the verifier inspects.
The receiver, when present, is the first input; `syn` exposes its type
(`self` ⇒ `Self`, `&mut self` ⇒ `&mut Self`, …), and the source maps
`FnArg::Receiver` and `FnArg::Typed` to that type uniformly. -/
structure Signature where
  constness : Bool
  asyncness : Bool
  unsafety : Bool
  abi : Option String
  ident : String
  genericParams : Nat
  whereClause : Bool
  inputs : List Ty
  variadic : Bool
  output : Option Ty
  deriving Repr

/-- `MaybeSelf` (src/impl/src/decl/sig.rs lines 170-187). -/
inductive MaybeSelf where
  | selfArg : SelfKind → MaybeSelf
  | typed : Ty → MaybeSelf
  deriving Repr

def MaybeSelf.toType (m : MaybeSelf) (elem : Ty) : Ty :=
  match m with
  | .selfArg k => k.toType elem
  | .typed t => t

def MaybeSelf.isSelfValue : MaybeSelf → Bool
  | .selfArg .value => true
  | _ => false

/-- `VerifiedSignature` (src/impl/src/decl/sig.rs lines 189-196). -/
structure VerifiedSig where
  unsafety : Bool
  abi : Option String
  ident : String
  inputs : List MaybeSelf
  output : Option MaybeSelf
  deriving Repr

/-- `Iterator::collect::<Result<Vec<_>>>` over a fallible map: stops at the
first error. -/
def mapExcept (f : α → Except ε β) : List α → Except ε (List β)
  | [] => .ok []
  | a :: as' =>
    match f a with
    | .error e => .error e
    | .ok b =>
      match mapExcept f as' with
      | .error e => .error e
      | .ok bs => .ok (b :: bs)

/-- Classification of one parameter/return type, the closure body inside
`VerifiedSignature::try_new` (src/impl/src/decl/sig.rs lines 238-252). -/
def classifyTy (t : Ty) : Except String MaybeSelf :=
  if containsSelf t then
    match selfKind t with
    | some k => .ok (.selfArg k)
    | none => .error "#[extern_trait] too complex `Self` type"
  else .ok (.typed t)

/-- `VerifiedSignature::try_new` (src/impl/src/decl/sig.rs lines 199-276). -/
def tryNew (sig : Signature) : Except String VerifiedSig :=
  if sig.constness then
    .error "#[extern_trait] does not support const functions"
  else if sig.asyncness then
    .error "#[extern_trait] does not support async functions"
  else if sig.genericParams ≠ 0 then
    .error "#[extern_trait] does not support generic functions"
  else if sig.whereClause then
    .error "#[extern_trait] does not support where clauses"
  else if sig.variadic then
    .error "#[extern_trait] does not support variadic functions"
  else
    match mapExcept classifyTy sig.inputs with
    | .error e => .error e
    | .ok inputs =>
      match sig.output with
      | none =>
        .ok { unsafety := sig.unsafety, abi := sig.abi, ident := sig.ident,
              inputs := inputs, output := none }
      | some t =>
        match classifyTy t with
        | .error e => .error e
        | .ok m =>
          .ok { unsafety := sig.unsafety, abi := sig.abi, ident := sig.ident,
                inputs := inputs, output := some m }

/- ## Legacy RegisterPair generator (src/src/decl.rs)

The repository also carries the earlier variant of the per-method generator,
whose `generate_proxy_impl` rejects by-value `Self` in *every* parameter
position, the receiver included (src/src/decl.rs lines 201-281). -/

/-- Return-type conversion of the legacy generator
(src/src/decl.rs lines 225-241). -/
def legacyClassifyOutput (proxy : Ty) : Option Ty → Except String (Option Ty)
  | none => .ok none
  | some ty =>
    if containsSelf ty then
      match selfKind ty with
      | some k => .ok (some (k.toType proxy))
      | none => .error "Too complex return type for #[extern_trait]"
    else .ok (some ty)

/-- Parameter-type conversion of the legacy generator
(src/src/decl.rs lines 243-270). -/
def legacyClassifyInput (proxy : Ty) (ty : Ty) : Except String Ty :=
  if containsSelf ty then
    match selfKind ty with
    | some .value =>
      .error "Passing `Self` by value is not supported for #[extern_trait] yet"
    | some k => .ok (k.toType proxy)
    | none => .error "Too complex argument type for #[extern_trait]"
  else .ok ty

/-- The legacy consumer stub: method name, converted parameter types and
converted return type. -/
structure LegacyStub where
  ident : String
  inputs : List Ty
  output : Option Ty
  deriving Repr

/-- Legacy `generate_proxy_impl` (src/src/decl.rs lines 201-281): converts
the return type first, then the parameters, failing on the first offending
type. -/
def legacyGenerateProxyImpl (proxyName : String) (sig : Signature) :
    Except String LegacyStub :=
  match legacyClassifyOutput (.path false none [.mk proxyName .nothing]) sig.output with
  | .error e => .error e
  | .ok output =>
    match mapExcept (legacyClassifyInput (.path false none [.mk proxyName .nothing])) sig.inputs with
    | .error e => .error e
    | .ok inputs => .ok ⟨sig.ident, inputs, output⟩

/- ## Current per-method generators (src/impl/src/decl/mod.rs) -/

/-- The literal `$ty` placeholder token (`Type::Verbatim(quote!($ty))`). -/
def placeholderTy : Ty := .other "$ty"

/-- The path `#extern_trait::Repr`. -/
def reprPathTy : Ty := .path false none [.mk "extern_trait" .nothing, .mk "Repr" .nothing]

/-- The consumer stub emitted by `generate_proxy_impl`
(src/impl/src/decl/mod.rs lines 189-215): a trait method on the proxy whose
body imports `linkName` and forwards the call unchanged. -/
structure Stub where
  unsafety : Bool
  abi : Option String
  ident : String
  linkName : String
  argTypes : List Ty
  output : Option Ty
  deriving Repr

def generateProxyImpl (proxyName exportName : String) (v : VerifiedSig) : Stub :=
  let proxy : Ty := .path false none [.mk proxyName .nothing]
  { unsafety := v.unsafety, abi := v.abi, ident := v.ident,
    linkName := exportName,
    argTypes := v.inputs.map (·.toType proxy),
    output := v.output.map (·.toType proxy) }

/-- The producer definition emitted by `generate_macro_rules`
(src/impl/src/decl/mod.rs lines 217-254): a function exported under
`exportName`, parameterized over the bound type `$ty`; when the method
returns `Self` by value the result is repacked through
`ExternSafe::into_repr` and the declared return type becomes `Repr`. -/
structure Producer where
  exportName : String
  ident : String
  argTypes : List Ty
  output : Option Ty
  repacksReturn : Bool
  deriving Repr

def isReturnSelfValue (v : VerifiedSig) : Bool :=
  match v.output with
  | some m => m.isSelfValue
  | none => false

def generateProducer (exportName : String) (v : VerifiedSig) : Producer :=
  if isReturnSelfValue v then
    { exportName := exportName, ident := v.ident,
      argTypes := v.inputs.map (·.toType placeholderTy),
      output := v.output.map (·.toType reprPathTy),
      repacksReturn := true }
  else
    { exportName := exportName, ident := v.ident,
      argTypes := v.inputs.map (·.toType placeholderTy),
      output := v.output.map (·.toType placeholderTy),
      repacksReturn := false }

/- ## The per-item expansion loop (src/impl/src/decl/mod.rs lines 35-60) -/

/-- A trait body item: a method with its signature, or anything else
(associated const/type, verbatim tokens, …). -/
inductive TraitItem where
  | fn : Signature → TraitItem
  | notFn : String → TraitItem
  deriving Repr

/-- What the loop contributes for one item: either a `compile_error!`
diagnostic spanned to that item, or the consumer stub together with the
producer definition. -/
inductive ItemOutput where
  | diagnostic : String → ItemOutput
  | generated : Stub → Producer → ItemOutput
  deriving Repr

def ItemOutput.isGenerated : ItemOutput → Bool
  | .generated _ _ => true
  | .diagnostic _ => false

/-- One iteration of the item loop. `exportNameOf` is the symbol string the
surrounding `expand` derives for a member name. -/
def processItem (proxyName : String) (exportNameOf : String → String) :
    TraitItem → ItemOutput
  | .notFn _ => .diagnostic "#[extern_trait] may only contain methods"
  | .fn sig =>
    match tryNew sig with
    | .ok v =>
      .generated (generateProxyImpl proxyName (exportNameOf sig.ident) v)
        (generateProducer (exportNameOf sig.ident) v)
    | .error e => .diagnostic e

/-- The whole item loop of `expand`. -/
def expandItems (proxyName : String) (exportNameOf : String → String)
    (items : List TraitItem) : List ItemOutput :=
  items.map (processItem proxyName exportNameOf)

/-- The trait-level gate and the item loop of `expand`
(src/impl/src/decl/mod.rs lines 16-60): a trait with generic parameters is
rejected outright, otherwise every item is processed independently. -/
def expandDecl (traitGenerics : Nat) (proxyName : String)
    (exportNameOf : String → String) (items : List TraitItem) :
    Except String (List ItemOutput) :=
  if traitGenerics ≠ 0 then .error "#[extern_trait] may not have generics"
  else .ok (expandItems proxyName exportNameOf items)

/- ## Supertrait capability relay (src/impl/src/decl/supertraits.rs) -/

instance : Inhabited VerifiedSig :=
  ⟨{ unsafety := false, abi := none, ident := "", inputs := [], output := none }⟩

/-- `Result::unwrap()`. -/
def forceOk [Inhabited α] : Except ε α → α
  | .ok a => a
  | .error _ => default

def lookupArg (m : List (String × GenArg)) (k : String) : Option GenArg :=
  (m.find? (fun p => p.1 == k)).map (·.2)

mutual

/-- Structural counterpart of the source's textual `____i` replacement on the
printed token stream followed by `syn::parse_str::<Signature>(..).unwrap()`:
a standalone path `____i` mapped to a *type* argument is replaced by it;
everything else is traversed.  A placeholder occurrence mapped to a
non-type argument (lifetime, const, assoc binding) splices tokens that are
not a type into a type position, so the re-parse fails and the `unwrap`
panics — modelled as `none`.  (The source folds the replacements over the
string; in the catalog's templates every placeholder occurs only as a
standalone type, where the two coincide.) -/
def substTyE (m : List (String × GenArg)) : Ty → Option Ty
  | .array e => (substTyE m e).map Ty.array
  | .bareFn ins out =>
    match substTyListE m ins, substTyOptE m out with
    | some ins2, some out2 => some (.bareFn ins2 out2)
    | _, _ => none
  | .group e => (substTyE m e).map Ty.group
  | .paren e => (substTyE m e).map Ty.paren
  | .path lc q segs =>
    match lc, q, segs with
    | false, none, [.mk k .nothing] =>
      match lookupArg m k with
      | some (.type r) => some r
      | some .otherArg => none
      | none => some (.path false none [.mk k .nothing])
    | lc, q, segs =>
      match substTyOptE m q, substTySegsE m segs with
      | some q2, some segs2 => some (.path lc q2 segs2)
      | _, _ => none
  | .ptr c mu e => (substTyE m e).map (Ty.ptr c mu)
  | .ref lt mu e => (substTyE m e).map (Ty.ref lt mu)
  | .slice e => (substTyE m e).map Ty.slice
  | .tuple es => (substTyListE m es).map Ty.tuple
  | .other s => some (.other s)

def substTyOptE (m : List (String × GenArg)) : Option Ty → Option (Option Ty)
  | none => some none
  | some t => (substTyE m t).map some

def substTyListE (m : List (String × GenArg)) : List Ty → Option (List Ty)
  | [] => some []
  | t :: ts =>
    match substTyE m t, substTyListE m ts with
    | some t2, some ts2 => some (t2 :: ts2)
    | _, _ => none

def substTySegsE (m : List (String × GenArg)) : List Segment → Option (List Segment)
  | [] => some []
  | .mk i args :: rest =>
    match substTyArgsE m args, substTySegsE m rest with
    | some args2, some rest2 => some (.mk i args2 :: rest2)
    | _, _ => none

def substTyArgsE (m : List (String × GenArg)) : PathArgs → Option PathArgs
  | .nothing => some .nothing
  | .angle gas => (substTyGenArgsE m gas).map PathArgs.angle
  | .parenthesized ins out =>
    match substTyListE m ins, substTyOptE m out with
    | some ins2, some out2 => some (.parenthesized ins2 out2)
    | _, _ => none

def substTyGenArgsE (m : List (String × GenArg)) : List GenArg → Option (List GenArg)
  | [] => some []
  | .type t :: rest =>
    match substTyE m t, substTyGenArgsE m rest with
    | some t2, some rest2 => some (.type t2 :: rest2)
    | _, _ => none
  | .otherArg :: rest => (substTyGenArgsE m rest).map (GenArg.otherArg :: ·)

end

/-- `VerifiedSignature`'s `ToTokens` (src/impl/src/decl/sig.rs lines
287-308) followed by `syn::parse_str::<Signature>`: the signature is printed
with `Self` substituted back in for every self-placeholder. -/
def printSig (v : VerifiedSig) : Signature :=
  { constness := false, asyncness := false, unsafety := v.unsafety,
    abi := v.abi, ident := v.ident, genericParams := 0, whereClause := false,
    inputs := v.inputs.map (·.toType selfTy), variadic := false,
    output := v.output.map (·.toType selfTy) }

/-- `SuperTraitInfo` (src/impl/src/decl/supertraits.rs lines 9-15). -/
structure CatEntry where
  isUnsafe : Bool
  name : String
  generics : Nat
  functions : List VerifiedSig

/-- The placeholder type `____i` used by the catalog templates. -/
def phIdent (i : Nat) : Ty := .path false none [.mk ("____" ++ toString i) .nothing]

def formatterTy : Ty :=
  .path true none [.mk "core" .nothing, .mk "fmt" .nothing,
    .mk "Formatter" (.angle [.otherArg])]

def fmtResultTy : Ty :=
  .path true none [.mk "core" .nothing, .mk "fmt" .nothing, .mk "Result" .nothing]

def baseSig (id : String) (ins : List Ty) (out : Option Ty) : Signature :=
  { constness := false, asyncness := false, unsafety := false, abi := none,
    ident := id, genericParams := 0, whereClause := false, inputs := ins,
    variadic := false, output := out }

/-- `fn fmt(&self, f: &mut ::core::fmt::Formatter<'_>) -> ::core::fmt::Result` -/
def fmtTemplate : Signature :=
  baseSig "fmt" [.ref none false selfTy, .ref none true formatterTy] (some fmtResultTy)

/-- `fn clone(&self) -> Self` -/
def cloneTemplate : Signature := baseSig "clone" [.ref none false selfTy] (some selfTy)

/-- `fn default() -> Self` -/
def defaultTemplate : Signature := baseSig "default" [] (some selfTy)

/-- `fn as_ref(&self) -> &____0` -/
def asRefTemplate : Signature :=
  baseSig "as_ref" [.ref none false selfTy] (some (.ref none false (phIdent 0)))

/-- `fn as_mut(&mut self) -> &mut ____0` -/
def asMutTemplate : Signature :=
  baseSig "as_mut" [.ref none true selfTy] (some (.ref none true (phIdent 0)))

/-- The fixed capability catalog `TRAITS`
(src/impl/src/decl/supertraits.rs lines 47-71); each template is run through
`VerifiedSignature::try_new(..).unwrap()` exactly as in the source. -/
def catalog : List CatEntry :=
  [ { isUnsafe := true, name := "Send", generics := 0, functions := [] },
    { isUnsafe := true, name := "Sync", generics := 0, functions := [] },
    { isUnsafe := false, name := "Sized", generics := 0, functions := [] },
    { isUnsafe := false, name := "Unpin", generics := 0, functions := [] },
    { isUnsafe := false, name := "Copy", generics := 0, functions := [] },
    { isUnsafe := false, name := "Debug", generics := 0,
      functions := [forceOk (tryNew fmtTemplate)] },
    { isUnsafe := false, name := "Clone", generics := 0,
      functions := [forceOk (tryNew cloneTemplate)] },
    { isUnsafe := false, name := "Default", generics := 0,
      functions := [forceOk (tryNew defaultTemplate)] },
    { isUnsafe := false, name := "AsRef", generics := 1,
      functions := [forceOk (tryNew asRefTemplate)] },
    { isUnsafe := false, name := "AsMut", generics := 1,
      functions := [forceOk (tryNew asMutTemplate)] } ]

/-- The catalog-matching condition inside `generate_impl`
(src/impl/src/decl/supertraits.rs lines 82-91). -/
def entryMatches (seg : Segment) (e : CatEntry) : Bool :=
  e.name == seg.ident &&
    match seg.args, e.generics with
    | .nothing, 0 => true
    | .angle gas, n => gas.length == n
    | _, _ => false

/-- `replace_map` (src/impl/src/decl/supertraits.rs lines 100-105): an
association list from `____i` to the i-th generic argument — the source
inserts the printed tokens of *every* argument, type or not. -/
def mkReplaceMap (args : PathArgs) : List (String × GenArg) :=
  match args with
  | .angle gas => gas.enum.map fun p => ("____" ++ toString p.1, p.2)
  | _ => []

/-- Template instantiation (src/impl/src/decl/supertraits.rs lines 107-117):
print the stored `VerifiedSignature`, textually substitute every `____i`,
re-parse with `parse_str::<Signature>(..).unwrap()`, re-verify with
`try_new(..).unwrap()`.  Both unwraps are reachable panics that abort the
whole compilation, modelled as `none`: the re-parse fails when a placeholder
received non-type tokens (e.g. a lifetime argument), the re-verification
fails when the substituted signature no longer passes (e.g. a nested `Self`
in the argument, as in `AsRef<[Self]>`). -/
def transformEntryFnE (m : List (String × GenArg)) (v : VerifiedSig) :
    Option VerifiedSig :=
  let s := printSig v
  match substTyListE m s.inputs, substTyOptE m s.output with
  | some ins, some out =>
    match tryNew { s with inputs := ins, output := out } with
    | .ok v2 => some v2
    | .error _ => none
  | _, _ => none

/-- `Iterator::map(..).collect::<Vec<_>>()` over a panicking closure: the
first panic aborts everything. -/
def mapOptionAll (f : α → Option β) : List α → Option (List β)
  | [] => some []
  | a :: as' =>
    match f a with
    | none => none
    | some b =>
      match mapOptionAll f as' with
      | none => none
      | some bs => some (b :: bs)

/-- What `generate_impl` returns on a catalog hit: the (possibly unsafe)
`impl <bound> for <proxy>` block containing one consumer stub per template
method, and one producer definition per template method. -/
structure SuperOut where
  isUnsafe : Bool
  methods : List VerifiedSig
  stubs : List Stub
  producers : List Producer
  deriving Repr

/-- How one call of `generate_impl` ends: `skipped` is its `None` return
(no catalog entry matched), `emitted` its `Some` return, and `aborted` a
panic of one of its `unwrap`s, which kills the whole compiler pass. -/
inductive RelayResult where
  | skipped : RelayResult
  | emitted : SuperOut → RelayResult
  | aborted : RelayResult
  deriving Repr

def RelayResult.emittedMethods : RelayResult → Option (List VerifiedSig)
  | .emitted out => some out.methods
  | _ => none

/-- `generate_impl` (src/impl/src/decl/supertraits.rs lines 73-146).
`memberNameOf` stands for `format!("{}::{}", path.to_token_stream(), ident)`
and `exportNameOf` for the symbol derivation, both supplied by `expand`. -/
def generateImpl (seg : Segment) (proxyName : String)
    (memberNameOf : Segment → String → String)
    (exportNameOf : String → String) : RelayResult :=
  match catalog.find? (entryMatches seg) with
  | none => .skipped
  | some e =>
    match mapOptionAll (transformEntryFnE (mkReplaceMap seg.args)) e.functions with
    | none => .aborted
    | some transformed =>
      .emitted { isUnsafe := e.isUnsafe,
                 methods := transformed,
                 stubs := transformed.map fun v =>
                   generateProxyImpl proxyName (exportNameOf (memberNameOf seg v.ident)) v,
                 producers := transformed.map fun v =>
                   generateProducer (exportNameOf (memberNameOf seg v.ident)) v }

/-- A supertrait bound as `expand` sees it
(src/impl/src/decl/mod.rs lines 64-79). -/
structure TraitBound where
  modifierNone : Bool
  hasLifetimes : Bool
  leadingColon : Bool
  segments : List Segment

/-- The bound filter in `expand` (src/impl/src/decl/mod.rs lines 64-79):
only a plain, unparenthesized, single-segment bound reaches `generate_impl`;
everything else contributes nothing. -/
def expandBound (b : TraitBound) (proxyName : String)
    (memberNameOf : Segment → String → String)
    (exportNameOf : String → String) : RelayResult :=
  match b.segments with
  | [seg] =>
    if b.modifierNone && !b.hasLifetimes && !b.leadingColon then
      generateImpl seg proxyName memberNameOf exportNameOf
    else .skipped
  | _ => .skipped

/- ## Symbol deriver (src/src/decl/sym.rs)

A `Symbol` carries the generation-site identity; the emitted symbol string is
`format!("{:?}", sym)`, i.e. the derived `Debug` representation of the whole
struct.  `Symbol::new` fills the identity fields from the site's build
metadata (`CARGO_PKG_NAME`, `CARGO_PKG_VERSION`, `CARGO_CRATE_NAME`, a hash
of `CARGO_MANIFEST_PATH`, a hash of the call-site `Span`). -/

structure ExternSymbol where
  externTrait : String
  package : String
  version : String
  crateName : String
  packageDisambiguator : Nat
  traitName : String
  localDisambiguator : Nat
  name : String
  deriving Repr

/-- The build metadata a generation site supplies to `Symbol::new`; the two
hashes stand for `hash(CARGO_MANIFEST_PATH)` and
`hash(format!("{:?}", Span::call_site()))` (u64 values, hence `Nat`). -/
structure SiteIdentity where
  pkg : String
  ver : String
  crate : String
  manifestHash : Nat
  spanHash : Nat

/-- `Symbol::new` (src/src/decl/sym.rs lines 36-47). -/
def ExternSymbol.new (site : SiteIdentity) (traitName : String) : ExternSymbol :=
  { externTrait := "v0", package := site.pkg, version := site.ver,
    crateName := site.crate, packageDisambiguator := site.manifestHash,
    traitName := traitName, localDisambiguator := site.spanHash, name := "" }

/-- `Symbol::with_name` (src/src/decl/sym.rs lines 49-52). -/
def ExternSymbol.withName (s : ExternSymbol) (n : String) : ExternSymbol := { s with name := n }

/-- Decimal digit character, as `u64`'s `Display` prints it. -/
def decDigit (d : Nat) : Char := Char.ofNat (48 + d)

/-- The decimal rendering of a `u64` (`Display`/`Debug` of an unsigned
integer): most-significant digit first, `"0"` for zero. -/
def decRepr (n : Nat) : List Char :=
  if n = 0 then ['0'] else ((Nat.digits 10 n).map decDigit).reverse

/-- A character that Rust's `char::escape_debug` leaves unchanged: printable
ASCII other than `"` and `\`.  On strings of such characters the `Debug`
formatting of a `String` is the identity between the enclosing quotes, which
is what `debugChars` assumes; Cargo package/version/crate names and the
member names the generator uses only contain such characters. -/
def plainChar (c : Char) : Bool :=
  decide (32 ≤ c.toNat) && decide (c.toNat < 127) && c != '"' && c != '\\'

def plainStr (s : String) : Bool := s.data.all plainChar

def symLit0 : List Char := "Symbol \x7b extern_trait: \"".data
def symLit1 : List Char := ", package: \"".data
def symLit2 : List Char := ", version: \"".data
def symLit3 : List Char := ", crate_name: \"".data
def symLit4 : List Char := ", package_disambiguator: ".data
def symLit5 : List Char := " trait_name: \"".data
def symLit6 : List Char := ", local_disambiguator: ".data
def symLit7 : List Char := " name: \"".data
def symLit8 : List Char := " \x7d".data

/-- `format!("{:?}", sym)`: the derived `Debug` representation of `Symbol`,
as a character list.  String fields appear quoted (their content taken
verbatim, see `plainChar`), integer fields in decimal. -/
def debugChars (s : ExternSymbol) : List Char :=
  symLit0 ++ (s.externTrait.data ++ '"' ::
  (symLit1 ++ (s.package.data ++ '"' ::
  (symLit2 ++ (s.version.data ++ '"' ::
  (symLit3 ++ (s.crateName.data ++ '"' ::
  (symLit4 ++ (decRepr s.packageDisambiguator ++ ',' ::
  (symLit5 ++ (s.traitName.data ++ '"' ::
  (symLit6 ++ (decRepr s.localDisambiguator ++ ',' ::
  (symLit7 ++ (s.name.data ++ '"' :: symLit8)))))))))))))))

/- ## Runtime protocol of the generated bridge

The model fixes a 64-bit target: a pointer is 8 bytes, so
`Repr(*const (), *const ())` (src/src/lib.rs line 8) is 16 bytes.  A value
of a concrete type of size `s` bytes is its bit pattern, a `Nat` below
`2 ^ (8 * s)`; `transmute`-style reinterpretation keeps the low bits and
truncates the rest, which is exactly what passing a value through the
two integer registers of `Repr` does. -/

def ptrBytes : Nat := 8

/-- `size_of::<Repr>()`: two pointers. -/
def reprBytes : Nat := 2 * ptrBytes

/-- The compile-time size assertion emitted by `#[extern_trait]` on an impl
block (src/impl/src/imp.rs lines 30-37):
`size_of::<T>() <= size_of::<Repr>() * 2`. -/
def sizeAssertPasses (tySize : Nat) : Bool := tySize ≤ reprBytes * 2

/-- The size requirement `IntRegRepr` documents and declares checked at
compile time (src/src/lib.rs lines 24-25, 33-34):
`size_of::<T>() <= 2 * size_of::<usize>()`. -/
def intRegReprSizeOk (tySize : Nat) : Bool := tySize ≤ 2 * ptrBytes

/-- A concrete implementation type: its process-wide identity token
(`ConstTypeId`, unique per type) and its size in bytes. -/
structure ImplType where
  id : Nat
  size : Nat
  deriving Repr, DecidableEq

/-- A proxy value: the 16-byte `Repr` payload it exclusively owns. -/
structure ProxyVal where
  repr : Nat
  deriving Repr, DecidableEq

/-- `IntRegRepr::into_repr` (src/src/lib.rs lines 87-94): reinterpret the
value's bits as `Repr` through the `reflect` identity function — the low
`8 * reprBytes` bits survive the trip through the two integer registers. -/
def intoRepr (v : Nat) : Nat := v % 2 ^ (8 * reprBytes)

/-- `IntRegRepr::from_repr` (src/src/lib.rs lines 97-104): reinterpret a
`Repr` as a value of a type of size `s`, reading its `s` bytes. -/
def fromRepr (s : Nat) (r : Nat) : Nat := r % 2 ^ (8 * s)

/-- `assert_type_is_impl::<T>` of the generated proxy
(src/impl/src/decl/mod.rs lines 120-132): compare `ConstTypeId::of::<T>()`
with the `TYPEID` static exported by the producer for the one bound type;
on mismatch the `assert!` terminates the program, modelled as `.error`. -/
def assertTypeIsImpl (impl T : ImplType) : Except String Unit :=
  if T.id = impl.id then .ok ()
  else .error "is not an implementation type for #[extern_trait]"

/-- `Proxy::from_impl` (src/impl/src/decl/mod.rs lines 136-139): assert the
type identity, then wrap `into_repr(value)`. -/
def fromImpl (impl T : ImplType) (v : Nat) : Except String ProxyVal :=
  match assertTypeIsImpl impl T with
  | .error e => .error e
  | .ok _ => .ok ⟨intoRepr v⟩

/-- `Proxy::into_impl` (src/impl/src/decl/mod.rs lines 143-148): assert,
then `from_repr(into_repr(self))` — the proxy itself is 16 bytes, so its
trip through the registers is lossless and the target type reads its own
`T.size` bytes back. -/
def intoImpl (impl T : ImplType) (p : ProxyVal) : Except String Nat :=
  match assertTypeIsImpl impl T with
  | .error e => .error e
  | .ok _ => .ok (fromRepr T.size (intoRepr p.repr))

/-- `Proxy::downcast_ref` (src/impl/src/decl/mod.rs lines 152-155): assert,
then read the proxy storage through `&T` — the first `T.size` bytes. -/
def downcastRef (impl T : ImplType) (p : ProxyVal) : Except String Nat :=
  match assertTypeIsImpl impl T with
  | .error e => .error e
  | .ok _ => .ok (p.repr % 2 ^ (8 * T.size))

/-- A write through the reference `Proxy::downcast_mut` returns
(src/impl/src/decl/mod.rs lines 159-162): assert, then overwrite the low
`T.size` bytes of the proxy storage with the new value's bits. -/
def downcastMutWrite (impl T : ImplType) (p : ProxyVal) (newV : Nat) :
    Except String ProxyVal :=
  match assertTypeIsImpl impl T with
  | .error e => .error e
  | .ok _ => .ok ⟨p.repr - p.repr % 2 ^ (8 * T.size) + newV % 2 ^ (8 * T.size)⟩

/- ## Destruction lifecycle

Rust runs `Drop::drop` exactly once when the owner of a proxy value goes out
of scope; the model takes that as the semantics of ownership and renders
observable behaviour as an event trace. -/

inductive RTEvent where
  | thunkCall : String → RTEvent
  | dropInPlace : RTEvent
  deriving Repr, DecidableEq

/-- The consumer-side `Drop` glue (src/impl/src/decl/mod.rs lines 109-117):
its whole body is a single call to the imported destructor symbol. -/
def proxyDropGlue (dropSym : String) : List RTEvent := [.thunkCall dropSym]

/-- The producer-side destructor thunk (src/impl/src/decl/mod.rs lines
172-175): `unsafe fn drop(this: &mut $ty) { ptr::drop_in_place(this) }`. -/
def dropThunk : List RTEvent := [.dropInPlace]

/-- Static linking: a call to the destructor symbol runs the thunk body. -/
def linkRun (evs : List RTEvent) : List RTEvent :=
  evs.flatMap fun e =>
    match e with
    | .thunkCall _ => dropThunk
    | e => [e]

/-- Non-destroying proxy operations (method calls, downcasts): none of them
emits a destruction event. -/
inductive ProxyOp where
  | methodCall : ProxyOp
  | downcastR : ProxyOp
  | downcastM : ProxyOp
  deriving Repr

def opEvents : ProxyOp → List RTEvent := fun _ => []

/-- The observable trace of one proxy lifetime: any number of ordinary
operations, then the single `Drop` the language performs at end of scope. -/
def lifecycle (ops : List ProxyOp) (dropSym : String) : List RTEvent :=
  (ops.flatMap opEvents) ++ linkRun (proxyDropGlue dropSym)

/- ## Generated proxy type declaration (src/impl/src/args.rs lines 67-79,
src/impl/src/decl/proxy.rs lines 24-36) -/

inductive LayoutTy where
  | reprPair : LayoutTy
  | transparentWrapper : LayoutTy → LayoutTy
  deriving Repr

/-- Size semantics of the layouts involved: `Repr` is two pointers, and
`#[repr(transparent)]` gives a wrapper exactly its field's layout. -/
def sizeOfLayout : LayoutTy → Nat
  | .reprPair => 2 * ptrBytes
  | .transparentWrapper t => sizeOfLayout t

/-- What `Proxy::expand` emits for the proxy type: the attributes on the
struct, its single field, and the unsafe marker impl. -/
structure GeneratedProxyDecl where
  ident : String
  reprTransparent : Bool
  field : LayoutTy
  markerImpl : Option String
  deriving Repr

/-- `Proxy::expand`: `#[repr(transparent)] struct #ident(Repr);` together
with `unsafe impl IntRegRepr for #ident {}`. -/
def proxyExpand (ident : String) : GeneratedProxyDecl :=
  { ident := ident, reprTransparent := true, field := .reprPair,
    markerImpl := some "IntRegRepr" }

def symbolWF (s : ExternSymbol) : Bool :=
  plainStr s.externTrait && plainStr s.package && plainStr s.version &&
    plainStr s.crateName && plainStr s.traitName && plainStr s.name

/-- How an accepted parameter/return type must come out of verification: a
type containing the self-placeholder is tagged with its recognized shape,
any other type is kept verbatim. -/
def taggedAs (t : Ty) (m : MaybeSelf) : Prop :=
  (containsSelf t = true → ∃ k, selfKind t = some k ∧ m = .selfArg k) ∧
  (containsSelf t = false → m = .typed t)

/-- `fn add(self, other: Self) -> Self` from tests/by_value.rs: a by-value
self-placeholder in receiver position *and* in a non-receiver position. -/
def addSig : Signature := baseSig "add" [selfTy, selfTy] (some selfTy)

/-- A well-formed method, a non-method item and a malformed method used to
exercise the expansion loop. -/
def getSig : Signature := baseSig "get" [.ref none false selfTy] (some (.path false none [.mk "u64" .nothing]))

def badSig : Signature :=
  { baseSig "pick" [.ref none false selfTy] (some selfTy) with genericParams := 1 }

def demoItems : List TraitItem := [.fn getSig, .notFn "const K", .fn badSig]

/-- The verified form of `getSig`. -/
def vGet : VerifiedSig :=
  { unsafety := false, abi := none, ident := "get",
    inputs := [.selfArg (.reference none false)],
    output := some (.typed (.path false none [.mk "u64" .nothing])) }

def strTy : Ty := .path false none [.mk "str" .nothing]

/-- The instantiated `as_ref` forwarding signature for `AsRef<str>`. -/
def asRefStrSig : VerifiedSig :=
  { unsafety := false, abi := none, ident := "as_ref",
    inputs := [.selfArg (.reference none false)],
    output := some (.typed (.ref none false strTy)) }

/-- Splitting an append at the first character violating `P`: if every
character of `x` and `y` satisfies `P` and the delimiters do not, the split
is unique. -/
theorem splitDelim (P : Char → Bool) (x : List Char) :
    ∀ (y r1 r2 : List Char) (c c' : Char),
      (∀ a ∈ x, P a = true) → (∀ a ∈ y, P a = true) →
      P c = false → P c' = false →
      x ++ c :: r1 = y ++ c' :: r2 → x = y ∧ c :: r1 = c' :: r2 := by
  induction x with
  | nil =>
    intro y r1 r2 c c' _ hy hc hc' h
    cases y with
    | nil => exact ⟨rfl, h⟩
    | cons b ys =>
      exfalso
      simp only [List.nil_append, List.cons_append, List.cons.injEq] at h
      have hb : P b = true := hy b (by simp)
      rw [← h.1] at hb
      rw [hc] at hb
      exact Bool.false_ne_true hb
  | cons a xs ih =>
    intro y r1 r2 c c' hx hy hc hc' h
    cases y with
    | nil =>
      exfalso
      simp only [List.cons_append, List.nil_append, List.cons.injEq] at h
      have ha : P a = true := hx a (by simp)
      rw [h.1, hc'] at ha
      exact Bool.false_ne_true ha
    | cons b ys =>
      simp only [List.cons_append, List.cons.injEq] at h
      obtain ⟨hab, htail⟩ := h
      have := ih ys r1 r2 c c'
        (fun a ha => hx a (by simp [ha])) (fun a ha => hy a (by simp [ha]))
        hc hc' htail
      exact ⟨by rw [hab, this.1], this.2⟩

theorem decDigit_toNat : ∀ d < 10, (decDigit d).toNat = 48 + d := by decide

theorem decDigit_isDigit : ∀ d < 10, (decDigit d).isDigit = true := by decide

theorem decRepr_digits (n : Nat) : ∀ c ∈ decRepr n, c.isDigit = true := by
  intro c hc
  unfold decRepr at hc
  by_cases h : n = 0
  · simp [h] at hc
    simp [hc]
  · simp only [h, if_false, List.mem_reverse, List.mem_map] at hc
    obtain ⟨d, hd, rfl⟩ := hc
    exact decDigit_isDigit d (Nat.digits_lt_base (by norm_num) hd)

theorem comma_not_digit : (','.isDigit : Bool) = false := by decide

theorem mapDecDigit_inj : ∀ (l1 l2 : List Nat), (∀ d ∈ l1, d < 10) →
    (∀ d ∈ l2, d < 10) → l1.map decDigit = l2.map decDigit → l1 = l2 := by
  intro l1
  induction l1 with
  | nil => intro l2 _ _ h; cases l2 <;> simp_all
  | cons a as ih =>
    intro l2 h1 h2 h
    cases l2 with
    | nil => simp at h
    | cons b bs =>
      simp only [List.map_cons, List.cons.injEq] at h
      have ha : a < 10 := h1 a (by simp)
      have hb : b < 10 := h2 b (by simp)
      have hab : a = b := by
        have := congrArg Char.toNat h.1
        rw [decDigit_toNat a ha, decDigit_toNat b hb] at this
        omega
      have := ih bs (fun d hd => h1 d (by simp [hd])) (fun d hd => h2 d (by simp [hd])) h.2
      rw [hab, this]

theorem decRepr_inj {a b : Nat} (h : decRepr a = decRepr b) : a = b := by
  unfold decRepr at h
  by_cases ha : a = 0 <;> by_cases hb : b = 0
  · rw [ha, hb]
  · exfalso
    simp only [ha, if_true, hb, if_false] at h
    have hlen : ((Nat.digits 10 b).map decDigit).reverse.length = 1 := by
      rw [← h]; simp
    simp only [List.length_reverse, List.length_map] at hlen
    obtain ⟨d, hd⟩ := List.length_eq_one.mp hlen
    rw [hd] at h
    simp only [List.map_cons, List.map_nil, List.reverse_cons, List.reverse_nil,
      List.nil_append, List.cons.injEq] at h
    have hd10 : d < 10 := Nat.digits_lt_base (by norm_num) (by rw [hd]; simp)
    have hd0 : d = 0 := by
      have := congrArg Char.toNat h.1
      have h0 : ('0'.toNat) = 48 := by decide
      rw [h0, decDigit_toNat d hd10] at this
      omega
    have hb0 : b = Nat.ofDigits 10 (Nat.digits 10 b) := (Nat.ofDigits_digits 10 b).symm
    rw [hd, hd0] at hb0
    simp [Nat.ofDigits] at hb0
    exact hb hb0
  · exfalso
    simp only [ha, if_false, hb, if_true] at h
    have hlen : ((Nat.digits 10 a).map decDigit).reverse.length = 1 := by
      rw [h]; simp
    simp only [List.length_reverse, List.length_map] at hlen
    obtain ⟨d, hd⟩ := List.length_eq_one.mp hlen
    rw [hd] at h
    simp only [List.map_cons, List.map_nil, List.reverse_cons, List.reverse_nil,
      List.nil_append, List.cons.injEq] at h
    have hd10 : d < 10 := Nat.digits_lt_base (by norm_num) (by rw [hd]; simp)
    have hd0 : d = 0 := by
      have := congrArg Char.toNat h.1
      have h0 : ('0'.toNat) = 48 := by decide
      rw [h0, decDigit_toNat d hd10] at this
      omega
    have ha0 : a = Nat.ofDigits 10 (Nat.digits 10 a) := (Nat.ofDigits_digits 10 a).symm
    rw [hd, hd0] at ha0
    simp [Nat.ofDigits] at ha0
    exact ha ha0
  · simp only [ha, if_false, hb, if_false] at h
    have := List.reverse_injective h
    have hdig := mapDecDigit_inj _ _
      (fun d hd => Nat.digits_lt_base (by norm_num) hd)
      (fun d hd => Nat.digits_lt_base (by norm_num) hd) this
    have := congrArg (Nat.ofDigits 10) hdig
    rwa [Nat.ofDigits_digits, Nat.ofDigits_digits] at this

theorem plain_no_quote {s : String} (h : plainStr s = true) :
    ∀ a ∈ s.data, (a != '"') = true := by
  intro a ha
  have := List.all_eq_true.mp h a ha
  simp only [plainChar, Bool.and_eq_true] at this
  exact this.1.2

theorem stepStr {f1 f2 r1 r2 : List Char} (lit : List Char)
    (hf1 : ∀ a ∈ f1, (a != '"') = true) (hf2 : ∀ a ∈ f2, (a != '"') = true)
    (h : f1 ++ '"' :: (lit ++ r1) = f2 ++ '"' :: (lit ++ r2)) :
    f1 = f2 ∧ r1 = r2 := by
  have hq : (('"' : Char) != '"') = false := by decide
  obtain ⟨hf, hr⟩ := splitDelim (fun c => c != '"') f1 f2 _ _ _ _ hf1 hf2 hq hq h
  rw [List.cons.injEq] at hr
  exact ⟨hf, List.append_cancel_left hr.2⟩

theorem stepNum {n1 n2 : Nat} {r1 r2 : List Char} (lit : List Char)
    (h : decRepr n1 ++ ',' :: (lit ++ r1) = decRepr n2 ++ ',' :: (lit ++ r2)) :
    n1 = n2 ∧ r1 = r2 := by
  obtain ⟨hf, hr⟩ := splitDelim Char.isDigit (decRepr n1) (decRepr n2) _ _ _ _
    (decRepr_digits n1) (decRepr_digits n2) comma_not_digit comma_not_digit h
  rw [List.cons.injEq] at hr
  exact ⟨decRepr_inj hf, List.append_cancel_left hr.2⟩

/-- The derived `Debug` representation determines every field of the
symbol: two well-formed symbols printing to the same string are equal. -/
theorem debugChars_inj (s1 s2 : ExternSymbol) (h1 : symbolWF s1 = true)
    (h2 : symbolWF s2 = true) (h : debugChars s1 = debugChars s2) : s1 = s2 := by
  simp only [symbolWF, Bool.and_eq_true] at h1 h2
  obtain ⟨⟨⟨⟨⟨w1et, w1p⟩, w1v⟩, w1c⟩, w1t⟩, w1n⟩ := h1
  obtain ⟨⟨⟨⟨⟨w2et, w2p⟩, w2v⟩, w2c⟩, w2t⟩, w2n⟩ := h2
  unfold debugChars at h
  have h := List.append_cancel_left h
  obtain ⟨hET, h⟩ := stepStr symLit1 (plain_no_quote w1et) (plain_no_quote w2et) h
  obtain ⟨hPKG, h⟩ := stepStr symLit2 (plain_no_quote w1p) (plain_no_quote w2p) h
  obtain ⟨hVER, h⟩ := stepStr symLit3 (plain_no_quote w1v) (plain_no_quote w2v) h
  obtain ⟨hCRT, h⟩ := stepStr symLit4 (plain_no_quote w1c) (plain_no_quote w2c) h
  obtain ⟨hPD, h⟩ := stepNum symLit5 h
  obtain ⟨hTN, h⟩ := stepStr symLit6 (plain_no_quote w1t) (plain_no_quote w2t) h
  obtain ⟨hLD, h⟩ := stepNum symLit7 h
  have hq : (('"' : Char) != '"') = false := by decide
  have hNM := (splitDelim (fun c => c != '"') _ _ _ _ _ _
    (plain_no_quote w1n) (plain_no_quote w2n) hq hq h).1
  cases s1; cases s2
  simp only at hET hPKG hVER hCRT hPD hTN hLD hNM
  congr 1 <;> first
    | exact String.ext hET
    | exact String.ext hPKG
    | exact String.ext hVER
    | exact String.ext hCRT
    | exact hPD
    | exact String.ext hTN
    | exact hLD
    | exact String.ext hNM

/- ## Auxiliary lemmas -/

theorem mapExcept_ok_forall2 {f : α → Except ε β} :
    ∀ {l : List α} {r : List β}, mapExcept f l = .ok r →
      List.Forall₂ (fun a b => f a = .ok b) l r := by
  intro l
  induction l with
  | nil =>
    intro r h
    simp only [mapExcept] at h
    cases h
    exact List.Forall₂.nil
  | cons a as ih =>
    intro r h
    simp only [mapExcept] at h
    cases hfa : f a with
    | error e => rw [hfa] at h; cases h
    | ok b =>
      rw [hfa] at h
      cases hrest : mapExcept f as with
      | error e => rw [hrest] at h; cases h
      | ok bs =>
        rw [hrest] at h
        cases h
        exact List.Forall₂.cons hfa (ih hrest)

theorem mapExcept_isOk_iff {f : α → Except ε β} :
    ∀ (l : List α), (mapExcept f l).isOk = true ↔ ∀ a ∈ l, (f a).isOk = true := by
  intro l
  induction l with
  | nil => simp [mapExcept, Except.isOk, Except.toBool]
  | cons a as ih =>
    simp only [mapExcept]
    cases hfa : f a with
    | error e => simp [Except.isOk, Except.toBool, hfa]
    | ok b =>
      cases hrest : mapExcept f as with
      | error e =>
        simp only [hrest, List.mem_cons]
        rw [hrest] at ih
        simp only [Except.isOk, Except.toBool] at ih ⊢
        simp at ih
        simp [hfa]
        exact ih
      | ok bs =>
        simp only [hrest]
        rw [hrest] at ih
        simp only [Except.isOk, Except.toBool] at ih ⊢
        simp at ih ⊢
        exact ⟨by simp [hfa], ih⟩

theorem isSelfTy_containsSelf {t : Ty} (h : isSelfTy t = true) :
    containsSelf t = true := by
  unfold isSelfTy at h
  split at h
  · rename_i heq
    simp only [containsSelf, containsSelfOpt, containsSelfSegs,
      containsSelfArgs]
    simp
  · cases h

theorem selfKind_value_isSelf {t : Ty} (h : selfKind t = some .value) :
    isSelfTy t = true := by
  unfold selfKind at h
  by_cases hs : isSelfTy t = true
  · exact hs
  · exfalso
    rw [if_neg hs] at h
    cases t <;> simp at h

/- ## Claim theorems -/

/-- C1: the claim says the emitted assertion fails whenever `size_of(T)`
exceeds two machine words (the size of `Repr`), so every accepted type fits
in two words.  The code instead compares against `size_of::<Repr>() * 2`,
i.e. four machine words: a 24-byte type (`[usize; 3]` on a 64-bit target)
passes the assertion while violating the two-word bound that `IntRegRepr`'s
own documentation declares "checked at compile time", and a value of such a
type is corrupted by the `Repr` round trip (its bits above the two
registers are lost). -/
theorem sizeAssertAcceptsThreeWordType :
    sizeAssertPasses 24 = true ∧ intRegReprSizeOk 24 = false ∧
      fromRepr 24 (intoRepr (2 ^ 128)) = 0 := by
  refine ⟨by decide, by decide, ?_⟩
  show 2 ^ 128 % 2 ^ (8 * reprBytes) % 2 ^ (8 * 24) = 0
  norm_num [reprBytes, ptrBytes]

/-- C10: every generated proxy type is a `#[repr(transparent)]` wrapper
around `Repr`, hence is exactly two pointer-sized words, and it receives an
unsafe impl of the eligibility marker (`IntRegRepr`), making the proxy
itself eligible for a further extern-trait boundary. -/
theorem proxyDeclTransparentTwoWords (idnt : String) :
    (proxyExpand idnt).reprTransparent = true ∧
    sizeOfLayout (.transparentWrapper (proxyExpand idnt).field) = 2 * ptrBytes ∧
    (proxyExpand idnt).markerImpl = some "IntRegRepr" :=
  ⟨rfl, rfl, rfl⟩

/-- C8: over one proxy lifetime — any sequence of ordinary operations
followed by the single `Drop` the language performs — the consumer-side
glue calls the destructor thunk exactly once, and the linked trace runs
`drop_in_place` on the concrete value exactly once: no leak, no double
free. -/
theorem dropRunsDestructorOnce (ops : List ProxyOp) (sym : String) :
    ((ops.flatMap opEvents) ++ proxyDropGlue sym).count (RTEvent.thunkCall sym) = 1 ∧
    (lifecycle ops sym).count RTEvent.dropInPlace = 1 := by
  have hops : ops.flatMap opEvents = [] := by
    induction ops with
    | nil => rfl
    | cons o os ih => simp [opEvents, ih]
  constructor
  · simp [hops, proxyDropGlue, List.count_cons]
  · simp [lifecycle, hops, linkRun, proxyDropGlue, dropThunk, List.count_cons]

/-- C2: every proxy operation guarded by `assert_type_is_impl` —
`downcast_ref`, `downcast_mut`, `from_impl`, `into_impl` — terminates the
program if and only if the supplied type's identity token differs from the
stored token of the one bound implementation type; with the bound type none
of them panics, `downcast_ref` reads the stored value, and a write through
`downcast_mut` is seen by every subsequent downcast. -/
theorem downcastIdentityGate (impl T : ImplType) (p : ProxyVal) (v w : Nat) :
    ((downcastRef impl T p).isOk = false ↔ T.id ≠ impl.id) ∧
    ((downcastMutWrite impl T p w).isOk = false ↔ T.id ≠ impl.id) ∧
    ((fromImpl impl T v).isOk = false ↔ T.id ≠ impl.id) ∧
    ((intoImpl impl T p).isOk = false ↔ T.id ≠ impl.id) ∧
    downcastRef impl impl p = .ok (p.repr % 2 ^ (8 * impl.size)) ∧
    (w < 2 ^ (8 * impl.size) →
      ∀ p', downcastMutWrite impl impl p w = .ok p' →
        downcastRef impl impl p' = .ok w) := by
  have hself : assertTypeIsImpl impl impl = .ok () := by
    simp [assertTypeIsImpl]
  refine ⟨?_, ?_, ?_, ?_, ?_, ?_⟩
  · by_cases h : T.id = impl.id <;>
      simp [downcastRef, assertTypeIsImpl, h, Except.isOk, Except.toBool]
  · by_cases h : T.id = impl.id <;>
      simp [downcastMutWrite, assertTypeIsImpl, h, Except.isOk, Except.toBool]
  · by_cases h : T.id = impl.id <;>
      simp [fromImpl, assertTypeIsImpl, h, Except.isOk, Except.toBool]
  · by_cases h : T.id = impl.id <;>
      simp [intoImpl, assertTypeIsImpl, h, Except.isOk, Except.toBool]
  · simp [downcastRef, hself]
  · intro hw p' hp'
    simp only [downcastMutWrite, hself] at hp'
    cases hp'
    simp only [downcastRef, hself]
    congr 1
    have hdm := Nat.div_add_mod p.repr (2 ^ (8 * impl.size))
    have hsub : p.repr - p.repr % 2 ^ (8 * impl.size) =
        2 ^ (8 * impl.size) * (p.repr / 2 ^ (8 * impl.size)) := by omega
    rw [hsub, Nat.mul_add_mod, Nat.mod_mod_of_dvd _ dvd_rfl]
    exact Nat.mod_eq_of_lt hw

/-- C2 witness: with the bound type, a value written through
`downcast_mut` is returned by the next `downcast_ref`. -/
theorem downcastIdentityGateWitness :
    downcastRef ⟨0, 8⟩ ⟨0, 8⟩ ⟨7⟩ = .ok 7 :=
  (downcastIdentityGate ⟨0, 8⟩ ⟨0, 8⟩ ⟨5⟩ 0 7).2.2.2.2.2 (by decide) ⟨7⟩ (by rfl)

/-- C3: for a bound implementation type that satisfies `IntRegRepr`'s size
contract, `from_impl` followed by `into_impl` with the same type parameter
reproduces the original value bit-for-bit through the
`into_repr`/`from_repr` reinterpretations. -/
theorem fromIntoRoundTrip (impl : ImplType) (v : Nat)
    (hs : intRegReprSizeOk impl.size = true) (hv : v < 2 ^ (8 * impl.size)) :
    (fromImpl impl impl v).bind (intoImpl impl impl) = .ok v := by
  have hself : assertTypeIsImpl impl impl = .ok () := by
    simp [assertTypeIsImpl]
  have hsz : impl.size ≤ 2 * ptrBytes := of_decide_eq_true hs
  have hle : 2 ^ (8 * impl.size) ≤ 2 ^ (8 * reprBytes) :=
    Nat.pow_le_pow_right (by norm_num) (by simp [reprBytes]; omega)
  have hvr : v < 2 ^ (8 * reprBytes) := lt_of_lt_of_le hv hle
  simp only [fromImpl, intoImpl, hself, Except.bind, fromRepr, intoRepr]
  rw [Nat.mod_eq_of_lt hvr, Nat.mod_eq_of_lt hvr, Nat.mod_eq_of_lt hv]

/-- C3 witness: a concrete 8-byte value survives the round trip. -/
theorem fromIntoRoundTripWitness :
    (fromImpl ⟨0, 8⟩ ⟨0, 8⟩ 42).bind (intoImpl ⟨0, 8⟩ ⟨0, 8⟩) = .ok 42 :=
  fromIntoRoundTrip ⟨0, 8⟩ 42 (by decide) (by decide)

/-- C4 counterexample: on the current generator the claim is false — a
method whose parameter list contains a by-value self-placeholder in a
non-receiver position is *not* rejected: `VerifiedSignature::try_new`
accepts it and the expansion loop generates its forwarding code instead of
a diagnostic. -/
theorem byValueSelfNotRejected :
    (tryNew addSig).isOk = true ∧
    (processItem "CounterProxy" (fun n => n) (.fn addSig)).isGenerated = true :=
  ⟨rfl, rfl⟩

/-- C4 amended: the current generator accepts by-value self-placeholders in
every position and emits forwarding code for them; it is the legacy
generator (src/src/decl.rs) that rejects a signature containing *any*
by-value self parameter — the receiver included — with the diagnostic
"Passing `Self` by value is not supported for #[extern_trait] yet",
scoped to that method. -/
theorem byValueSelfPolicy (sig : Signature)
    (h : ∃ t ∈ sig.inputs, selfKind t = some .value) :
    (legacyGenerateProxyImpl "P" sig).isOk = false ∧
    (tryNew addSig).isOk = true ∧
    (processItem "P" (fun n => n) (.fn addSig)).isGenerated = true ∧
    legacyGenerateProxyImpl "P" addSig =
      .error "Passing `Self` by value is not supported for #[extern_trait] yet" := by
  refine ⟨?_, rfl, rfl, rfl⟩
  obtain ⟨t, ht, hk⟩ := h
  have hcs : containsSelf t = true := isSelfTy_containsSelf (selfKind_value_isSelf hk)
  have hfail : (legacyClassifyInput (.path false none [.mk "P" .nothing]) t).isOk = false := by
    simp [legacyClassifyInput, hcs, hk, Except.isOk, Except.toBool]
  unfold legacyGenerateProxyImpl
  cases ho : legacyClassifyOutput (.path false none [.mk "P" .nothing]) sig.output with
  | error e => simp [Except.isOk, Except.toBool]
  | ok o =>
    cases hm : mapExcept (legacyClassifyInput (.path false none [.mk "P" .nothing])) sig.inputs with
    | error e => simp [Except.isOk, Except.toBool]
    | ok r =>
      exfalso
      have hok : (mapExcept (legacyClassifyInput
          (.path false none [.mk "P" .nothing])) sig.inputs).isOk = true := by
        rw [hm]; rfl
      have hall := (mapExcept_isOk_iff sig.inputs).mp hok t ht
      rw [hfail] at hall
      exact Bool.false_ne_true hall

/-- C4 witness: the legacy generator indeed fails on `add(self, other: Self)`. -/
theorem byValueSelfPolicyWitness :
    (legacyGenerateProxyImpl "P" addSig).isOk = false :=
  (byValueSelfPolicy addSig ⟨selfTy, by simp [addSig, baseSig], rfl⟩).1

/-- C5: two generation sites that differ in module identity (package name,
version, crate name) or in either per-site disambiguator never derive the
same symbol string, whatever member names the two sites request. -/
theorem symbolNoCollision (site1 site2 : SiteIdentity) (t1 t2 n1 n2 : String)
    (hw1 : symbolWF ((ExternSymbol.new site1 t1).withName n1) = true)
    (hw2 : symbolWF ((ExternSymbol.new site2 t2).withName n2) = true)
    (hdiff : site1.pkg ≠ site2.pkg ∨ site1.ver ≠ site2.ver ∨
      site1.crate ≠ site2.crate ∨ site1.manifestHash ≠ site2.manifestHash ∨
      site1.spanHash ≠ site2.spanHash) :
    debugChars ((ExternSymbol.new site1 t1).withName n1) ≠
      debugChars ((ExternSymbol.new site2 t2).withName n2) := by
  intro h
  have heq := debugChars_inj _ _ hw1 hw2 h
  simp only [ExternSymbol.new, ExternSymbol.withName, ExternSymbol.mk.injEq] at heq
  obtain ⟨_, hp, hv, hc, hmd, _, hsd, _⟩ := heq
  rcases hdiff with h'|h'|h'|h'|h' <;> exact h' (by assumption)

/-- C5 witness: two sites with equal trait and member names but different
package names derive different symbol strings. -/
theorem symbolNoCollisionWitness :
    debugChars ((ExternSymbol.new ⟨"alpha", "1.0.0", "alpha", 11, 21⟩ "Greet").withName "drop") ≠
      debugChars ((ExternSymbol.new ⟨"beta", "1.0.0", "beta", 12, 22⟩ "Greet").withName "drop") :=
  symbolNoCollision _ _ _ _ _ _ (by decide) (by decide) (Or.inl (by decide))

/-- C7: when the trait-level checks pass, expansion processes every item
independently: each output position is the image of the corresponding item,
a malformed item becomes a diagnostic local to it, and every well-formed
method still receives its consumer stub and its producer definition. -/
theorem expandLocalizesErrors (proxyName : String) (en : String → String)
    (items : List TraitItem) (g : Nat) (hg : g = 0) :
    expandDecl g proxyName en items = .ok (expandItems proxyName en items) ∧
    (∀ i, (expandItems proxyName en items).get? i =
      (items.get? i).map (processItem proxyName en)) ∧
    (∀ sig v, tryNew sig = .ok v → processItem proxyName en (.fn sig) =
      .generated (generateProxyImpl proxyName (en sig.ident) v)
        (generateProducer (en sig.ident) v)) ∧
    (∀ sig e, tryNew sig = .error e →
      processItem proxyName en (.fn sig) = .diagnostic e) ∧
    (∀ s, processItem proxyName en (.notFn s) =
      .diagnostic "#[extern_trait] may only contain methods") := by
  subst hg
  refine ⟨rfl, ?_, ?_, ?_, fun s => rfl⟩
  · intro i
    simp [expandItems, List.getElem?_map]
  · intro sig v hv
    simp [processItem, hv]
  · intro sig e he
    simp [processItem, he]

/-- C7 witness: expansion of a mixed item list succeeds as a whole. -/
theorem expandLocalizesErrorsWitness :
    expandDecl 0 "P" (fun n => n) demoItems =
      .ok (expandItems "P" (fun n => n) demoItems) :=
  (expandLocalizesErrors "P" (fun n => n) demoItems 0 rfl).1

theorem classifyTy_fail_iff (t : Ty) :
    (classifyTy t).isOk = false ↔ containsSelf t = true ∧ selfKind t = none := by
  unfold classifyTy
  by_cases hc : containsSelf t = true
  · cases hk : selfKind t with
    | none => simp [hc, hk, Except.isOk, Except.toBool]
    | some k => simp [hc, hk, Except.isOk, Except.toBool]
  · simp only [Bool.not_eq_true] at hc
    simp [hc, Except.isOk, Except.toBool]

theorem classifyTy_ok_tag {t : Ty} {m : MaybeSelf} (h : classifyTy t = .ok m) :
    taggedAs t m := by
  unfold classifyTy at h
  by_cases hc : containsSelf t = true
  · rw [if_pos hc] at h
    cases hk : selfKind t with
    | none => rw [hk] at h; cases h
    | some k =>
      rw [hk] at h
      cases h
      exact ⟨fun _ => ⟨k, hk, rfl⟩, fun hf => by rw [hc] at hf; cases hf⟩
  · rw [if_neg hc] at h
    cases h
    simp only [Bool.not_eq_true] at hc
    exact ⟨fun hf => absurd hf (by rw [hc]; simp), fun _ => rfl⟩

theorem classifyTy_err_shape {t : Ty} {e : String} (h : classifyTy t = .error e) :
    containsSelf t = true ∧ selfKind t = none := by
  have : (classifyTy t).isOk = false := by rw [h]; rfl
  exact (classifyTy_fail_iff t).mp this

/-- C6: signature verification fails exactly on `const`, `async`, generic
(type parameters or a `where` clause), variadic signatures, or signatures
in which some parameter or return type contains the self-placeholder in a
shape other than the three recognized ones — in particular every nested
occurrence of `Self` is rejected — and every accepted signature has all its
self-placeholders tagged with their recognized shape and every other type
kept verbatim. -/
theorem verifyRejectIff (sig : Signature) :
    ((tryNew sig).isOk = false ↔
      (sig.constness = true ∨ sig.asyncness = true ∨ sig.genericParams ≠ 0 ∨
        sig.whereClause = true ∨ sig.variadic = true ∨
        (∃ t ∈ sig.inputs, containsSelf t = true ∧ selfKind t = none) ∨
        (∃ t, sig.output = some t ∧ containsSelf t = true ∧ selfKind t = none))) ∧
    (∀ v, tryNew sig = .ok v →
      List.Forall₂ taggedAs sig.inputs v.inputs ∧
      (sig.output = none → v.output = none) ∧
      (∀ t, sig.output = some t → ∃ m, v.output = some m ∧ taggedAs t m)) := by
  cases h1 : sig.constness with
  | true =>
    refine ⟨⟨fun _ => Or.inl rfl, fun _ => ?_⟩, fun v hv => ?_⟩
    · simp [tryNew, h1, Except.isOk, Except.toBool]
    · simp [tryNew, h1] at hv
  | false =>
  cases h2 : sig.asyncness with
  | true =>
    refine ⟨⟨fun _ => Or.inr (Or.inl rfl), fun _ => ?_⟩, fun v hv => ?_⟩
    · simp [tryNew, h1, h2, Except.isOk, Except.toBool]
    · simp [tryNew, h1, h2] at hv
  | false =>
  by_cases h3 : sig.genericParams = 0
  case neg =>
    refine ⟨⟨fun _ => Or.inr (Or.inr (Or.inl h3)), fun _ => ?_⟩, fun v hv => ?_⟩
    · simp [tryNew, h1, h2, h3, Except.isOk, Except.toBool]
    · simp [tryNew, h1, h2, h3] at hv
  case pos =>
  cases h4 : sig.whereClause with
  | true =>
    refine ⟨⟨fun _ => Or.inr (Or.inr (Or.inr (Or.inl rfl))), fun _ => ?_⟩,
      fun v hv => ?_⟩
    · simp [tryNew, h1, h2, h3, h4, Except.isOk, Except.toBool]
    · simp [tryNew, h1, h2, h3, h4] at hv
  | false =>
  cases h5 : sig.variadic with
  | true =>
    refine ⟨⟨fun _ => Or.inr (Or.inr (Or.inr (Or.inr (Or.inl rfl)))), fun _ => ?_⟩,
      fun v hv => ?_⟩
    · simp [tryNew, h1, h2, h3, h4, h5, Except.isOk, Except.toBool]
    · simp [tryNew, h1, h2, h3, h4, h5] at hv
  | false =>
  have hred : tryNew sig =
      (match mapExcept classifyTy sig.inputs with
       | .error e => .error e
       | .ok inputs =>
         match sig.output with
         | none =>
           .ok { unsafety := sig.unsafety, abi := sig.abi, ident := sig.ident,
                 inputs := inputs, output := none }
         | some t =>
           match classifyTy t with
           | .error e => .error e
           | .ok m =>
             .ok { unsafety := sig.unsafety, abi := sig.abi, ident := sig.ident,
                   inputs := inputs, output := some m }) := by
    rw [tryNew]
    simp [h1, h2, h3, h4, h5]
  cases him : mapExcept classifyTy sig.inputs with
  | error e =>
    have hex : ∃ t ∈ sig.inputs, containsSelf t = true ∧ selfKind t = none := by
      by_contra hall
      push_neg at hall
      have hok : ∀ a ∈ sig.inputs, (classifyTy a).isOk = true := by
        intro a ha
        cases hoka : (classifyTy a).isOk with
        | true => rfl
        | false =>
          obtain ⟨hc, hk⟩ := (classifyTy_fail_iff a).mp hoka
          exact absurd hk (hall a ha hc)
      have hcontra := (mapExcept_isOk_iff sig.inputs).mpr hok
      rw [him] at hcontra
      simp [Except.isOk, Except.toBool] at hcontra
    refine ⟨⟨fun _ => Or.inr (Or.inr (Or.inr (Or.inr (Or.inr (Or.inl hex))))),
      fun _ => ?_⟩, fun v hv => ?_⟩
    · rw [hred, him]; rfl
    · rw [hred, him] at hv; cases hv
  | ok inputs =>
    have htag : List.Forall₂ taggedAs sig.inputs inputs :=
      List.Forall₂.imp (fun a b h => classifyTy_ok_tag h) (mapExcept_ok_forall2 him)
    have hinok : ∀ t ∈ sig.inputs, ¬(containsSelf t = true ∧ selfKind t = none) := by
      intro t ht hcontra
      have hall := (mapExcept_isOk_iff sig.inputs).mp (by rw [him]; rfl) t ht
      rw [(classifyTy_fail_iff t).mpr hcontra] at hall
      cases hall
    cases hout : sig.output with
    | none =>
      have hok2 : tryNew sig = .ok
          { unsafety := sig.unsafety, abi := sig.abi, ident := sig.ident,
            inputs := inputs, output := none } := by
        rw [hred, him, hout]
      refine ⟨⟨fun habs => ?_, fun hrhs => ?_⟩, fun v hv => ?_⟩
      · rw [hok2] at habs
        simp [Except.isOk, Except.toBool] at habs
      · exfalso
        rcases hrhs with h|h|h|h|h|h|h
        · exact Bool.false_ne_true h
        · exact Bool.false_ne_true h
        · exact h h3
        · exact Bool.false_ne_true h
        · exact Bool.false_ne_true h
        · obtain ⟨t, ht, hc⟩ := h; exact hinok t ht hc
        · obtain ⟨t, ht, _⟩ := h; cases ht
      · rw [hok2] at hv
        cases hv
        exact ⟨htag, fun _ => rfl, fun t ht => by cases ht⟩
    | some t =>
      cases hct : classifyTy t with
      | error e =>
        have herr : tryNew sig = .error e := by
          rw [hred, him, hout]
          simp [hct]
        refine ⟨⟨fun _ => Or.inr (Or.inr (Or.inr (Or.inr (Or.inr (Or.inr
          ⟨t, rfl, classifyTy_err_shape hct⟩))))), fun _ => ?_⟩, fun v hv => ?_⟩
        · rw [herr]; rfl
        · rw [herr] at hv; cases hv
      | ok m =>
        have hok2 : tryNew sig = .ok
            { unsafety := sig.unsafety, abi := sig.abi, ident := sig.ident,
              inputs := inputs, output := some m } := by
          rw [hred, him, hout]
          simp [hct]
        refine ⟨⟨fun habs => ?_, fun hrhs => ?_⟩, fun v hv => ?_⟩
        · rw [hok2] at habs
          simp [Except.isOk, Except.toBool] at habs
        · exfalso
          rcases hrhs with h|h|h|h|h|h|h
          · exact Bool.false_ne_true h
          · exact Bool.false_ne_true h
          · exact h h3
          · exact Bool.false_ne_true h
          · exact Bool.false_ne_true h
          · obtain ⟨u, hu, hc⟩ := h; exact hinok u hu hc
          · obtain ⟨u, hu, hc⟩ := h
            injection hu with hu
            subst hu
            have hfk : (classifyTy t).isOk = false := (classifyTy_fail_iff t).mpr hc
            rw [hct] at hfk
            simp [Except.isOk, Except.toBool] at hfk
        · rw [hok2] at hv
          cases hv
          refine ⟨htag, fun hn => ?_, fun u hu => ?_⟩
          · cases hn
          · injection hu with hu
            subst hu
            exact ⟨m, rfl, classifyTy_ok_tag hct⟩

/-- C6 witness: `fn get(&self) -> u64` is accepted with its receiver tagged
as a shared-reference self-placeholder. -/
theorem verifyRejectIffWitness :
    List.Forall₂ taggedAs getSig.inputs vGet.inputs :=
  ((verifyRejectIff getSig).2 vGet rfl).1

/-- C9 counterexample: `AsRef<[Self]>` matches the catalog's `AsRef` entry
with the matching number of type arguments, yet the relay neither emits the
entry's forwarding methods nor skips the bound silently — the
re-verification `unwrap` panics and compilation aborts. -/
theorem matchedBoundAborts :
    (catalog.find? (entryMatches
      (Segment.mk "AsRef" (.angle [.type (.slice selfTy)])))).isSome = true ∧
    generateImpl (.mk "AsRef" (.angle [.type (.slice selfTy)])) "P"
      (fun _ n => n) (fun n => n) = .aborted :=
  ⟨rfl, rfl⟩

/-- C9 amended: a supertrait bound matching a catalog entry's name and total
generic-argument count has that entry's templates instantiated by textual
substitution and re-verified; the relay emits the marker impl or the
substituted forwarding methods only when every argument is a type and every
substituted signature re-verifies, and otherwise one of `generate_impl`'s
`unwrap`s panics, aborting compilation (`AsRef<'static>` at the re-parse,
`AsRef<[Self]>` at the re-verification).  A bound matching no entry is
skipped silently, producing no diagnostic and no boundary code. -/
theorem capabilityRelayInstantiation (seg : Segment)
    (mn : Segment → String → String) (en : String → String) :
    (generateImpl seg "P" mn en = .skipped ↔
      ∀ e ∈ catalog, entryMatches seg e = false) ∧
    (∀ out, generateImpl seg "P" mn en = .emitted out →
      ∃ e ∈ catalog, entryMatches seg e = true ∧
        mapOptionAll (transformEntryFnE (mkReplaceMap seg.args)) e.functions =
          some out.methods ∧
        out.isUnsafe = e.isUnsafe ∧
        out.stubs.length = out.methods.length ∧
        out.producers.length = out.methods.length) ∧
    (generateImpl seg "P" mn en = .aborted →
      ∃ e ∈ catalog, entryMatches seg e = true ∧
        mapOptionAll (transformEntryFnE (mkReplaceMap seg.args)) e.functions = none) ∧
    generateImpl (.mk "Iterator" .nothing) "P" mn en = .skipped ∧
    generateImpl (.mk "Send" .nothing) "P" mn en =
      .emitted { isUnsafe := true, methods := [], stubs := [], producers := [] } ∧
    (generateImpl (.mk "AsRef" (.angle [.type strTy])) "P" mn en).emittedMethods =
      some [asRefStrSig] ∧
    generateImpl (.mk "AsRef" (.angle [.otherArg])) "P" mn en = .aborted ∧
    generateImpl (.mk "AsRef" (.angle [.type (.slice selfTy)])) "P" mn en =
      .aborted := by
  refine ⟨?_, ?_, ?_, rfl, rfl, rfl, rfl, rfl⟩
  · unfold generateImpl
    cases hf : catalog.find? (entryMatches seg) with
    | none =>
      constructor
      · intro _ e he
        have := List.find?_eq_none.mp hf e he
        simpa using this
      · intro _; rfl
    | some e =>
      constructor
      · intro habs
        cases hm : mapOptionAll (transformEntryFnE (mkReplaceMap seg.args))
            e.functions with
        | none => simp [hm] at habs
        | some tr => simp [hm] at habs
      · intro hall
        have hmem := List.mem_of_find?_eq_some hf
        have hp := List.find?_some hf
        rw [hall e hmem] at hp
        cases hp
  · intro out hout
    unfold generateImpl at hout
    cases hf : catalog.find? (entryMatches seg) with
    | none => rw [hf] at hout; cases hout
    | some e =>
      rw [hf] at hout
      cases hm : mapOptionAll (transformEntryFnE (mkReplaceMap seg.args))
          e.functions with
      | none => simp [hm] at hout
      | some tr =>
        simp only [hm] at hout
        injection hout with hout
        refine ⟨e, List.mem_of_find?_eq_some hf, List.find?_some hf, ?_, ?_, ?_, ?_⟩
        · rw [← hout, hm]
        · rw [← hout]
        · rw [← hout]; simp
        · rw [← hout]; simp
  · intro habort
    unfold generateImpl at habort
    cases hf : catalog.find? (entryMatches seg) with
    | none => rw [hf] at habort; cases habort
    | some e =>
      rw [hf] at habort
      cases hm : mapOptionAll (transformEntryFnE (mkReplaceMap seg.args))
          e.functions with
      | none => exact ⟨e, List.mem_of_find?_eq_some hf, List.find?_some hf, hm⟩
      | some tr => simp [hm] at habort

/-- C9 witness: the abort clause applied at `AsRef<[Self]>`, whose template
instantiation panics during re-verification. -/
theorem capabilityRelayInstantiationWitness :
    ∃ e ∈ catalog,
      entryMatches (Segment.mk "AsRef" (.angle [.type (.slice selfTy)])) e = true ∧
      mapOptionAll (transformEntryFnE (mkReplaceMap
        (PathArgs.angle [.type (.slice selfTy)]))) e.functions = none :=
  (capabilityRelayInstantiation (.mk "AsRef" (.angle [.type (.slice selfTy)]))
    (fun _ n => n) (fun n => n)).2.2.1 rfl
